import Mathlib

/-!
# cert-manager webhook for zone.eu: a shallow embedding and its properties

The Go program (`main.go`, `zoneeu.go`) is a DNS-01 solver: `Present` creates a TXT
record through the provider's REST API, `CleanUp` lists the records and deletes one.

Modelling conventions.

* A Go `string` and a Go `[]byte` holding text are both a Lean `String`; the conversions
  `string(b)` and `[]byte(s)` are the identity.  A nil `[]byte` is `none`.
* A Go `error` is `Option String` (its message); `nil` is `none`.
* Everything outside the repository (the Kubernetes client, `encoding/json`, `net/http`)
  is a field of `Env`: the functions of the program are defined for every environment.
* The provider is a state machine: `Env.Do` takes the provider state and a request, and
  gives the outcome of the round trip and the next state.  `World.Sent` records every
  request handed to `client.Do`, `World.Klog` every line written through `klog`.
* `Response.Body` is the byte sequence `ioutil.ReadAll` yields (line 221 discards its
  error).  The deferred `resp.Body.Close()` is taken to return nil, as it does for a body
  that has been read; on a non-nil result the source calls `klog.Fatal`, which ends the
  process, so that no call returns anything.
* A method call through a nil `*kubernetes.Clientset` is a run-time panic, `Outcome.panic`.
-/

set_option autoImplicit false

namespace ZoneEu

/-! ## Library functions of Go used by the source -/

/-- Go `strings.TrimRight(s, cutset)`: `s` with all trailing code points contained in
`cutset` removed. -/
def TrimRight (s cutset : String) : String :=
  ⟨s.data.rdropWhile (fun c => cutset.data.contains c)⟩

/-- Go `unicode.IsSpace`: the code points with the White_Space property. -/
def isSpace (c : Char) : Bool :=
  let n := c.toNat
  (9 ≤ n && n ≤ 13) || n = 0x20 || n = 0x85 || n = 0xA0 || n = 0x1680 ||
  (0x2000 ≤ n && n ≤ 0x200A) || n = 0x2028 || n = 0x2029 || n = 0x202F ||
  n = 0x205F || n = 0x3000

/-- Go `strings.TrimSpace(s)`: `s` without leading and trailing white space. -/
def TrimSpace (s : String) : String :=
  ⟨(s.data.dropWhile isSpace).rdropWhile isSpace⟩

/-- The `%q` verb of `fmt` on a string of printable ASCII without quote or backslash
(the source passes only the constants `api-key` and `api-username`). -/
def quote (s : String) : String :=
  "\"" ++ s ++ "\""

/-! ## Data model (`zoneeu.go`, `main.go` lines 36-44) -/

/-- The solver: its only field is the Kubernetes client handle, nil until `Initialize`. -/
structure zoneEuDNSProviderSolver (κ : Type) where
  client : Option κ

/-- The per-request configuration, decoded from JSON. -/
structure zoneEuDNSProviderConfig where
  SecretRef : String
  ZoneName : String
  ApiUrl : String
deriving DecidableEq, Repr

/-- The resolved credentials and endpoint. -/
structure ApiConfig where
  ApiUserName : String
  ApiKey : String
  ZoneName : String
  ApiUrl : String
deriving DecidableEq, Repr

/-- One TXT record of the provider's list response. -/
structure TxtRecord where
  Id : String
  ResourceUrl : String
  Name : String
  Destination : String
deriving DecidableEq, Repr

/-- The provider's list response. -/
structure TxtRecordResponse where
  Records : List TxtRecord
  Message : String
deriving DecidableEq, Repr

/-- The fields of `v1alpha1.ChallengeRequest` the program reads.  `Config` is the raw JSON
of the solver configuration, `none` for a nil pointer. -/
structure ChallengeRequest where
  ResourceNamespace : String
  ResolvedZone : String
  ResolvedFQDN : String
  Key : String
  Config : Option String
deriving DecidableEq, Repr

/-- A Kubernetes secret: `Data` is the map from key to bytes, as an association list. -/
structure Secret where
  Data : List (String × String)
deriving DecidableEq, Repr

/-- An HTTP request as `callDnsApi` builds it. -/
structure Request where
  Method : String
  URL : String
  Body : Option String
  Header : List (String × String)
  BasicAuth : String × String
deriving DecidableEq, Repr

/-- An HTTP response: status line, status code and the bytes read from the body. -/
structure Response where
  Status : String
  StatusCode : Int
  Body : String
deriving DecidableEq, Repr

/-- A line written through `klog`: `info v` is `klog.V(v).Infof` (`klog.Infof` for 0). -/
inductive LogLine where
  | info (v : Nat) (msg : String)
  | error (msg : String)
deriving DecidableEq, Repr

/-- What a Go call does: it returns, or it panics. -/
inductive Outcome (α : Type) where
  | ret (a : α)
  | panic
deriving DecidableEq, Repr

/-- The outside world: the provider state, the requests sent so far, the log so far. -/
structure World (σ : Type) where
  net : σ
  Sent : List Request
  Klog : List LogLine

/-- Appends one line to the log. -/
def World.log {σ : Type} (w : World σ) (l : LogLine) : World σ :=
  { w with Klog := w.Klog ++ [l] }

/-- The library functions the program calls.
* `NewForConfig` is `kubernetes.NewForConfig`.
* `SecretsGet k ns name` is `k.CoreV1().Secrets(ns).Get(ctx, name, opts)`.
* `UnmarshalConfig raw` is `json.Unmarshal(raw, &cfg)` on a zero `cfg`: the value left in
  `cfg` and the error.  `UnmarshalRecords` likewise for `TxtRecordResponse`.
* `NewRequest method url` is the error of `http.NewRequest(method, url, body)`, if any.
* `Do` is one round trip of `(&http.Client{}).Do`. -/
structure Env (σ κ ρ : Type) where
  NewForConfig : ρ → Except String κ
  SecretsGet : κ → String → String → Except String Secret
  UnmarshalConfig : String → zoneEuDNSProviderConfig × Option String
  UnmarshalRecords : String → TxtRecordResponse × Option String
  NewRequest : String → String → Option String
  Do : σ → Request → Except String Response × σ

variable {σ κ ρ : Type}

/-! ## The program (`main.go`) -/

/-- Lines 46-48. -/
def Name : String := "zone-eu"

/-- Lines 112-122: `Initialize`.  `stopChLen` is `len(stopCh)`.  Returns the solver after
the call, the error, and the world after the call. -/
def Initialize (env : Env σ κ ρ) (c : zoneEuDNSProviderSolver κ) (kubeClientConfig : ρ)
    (stopChLen : Nat) (w : World σ) : (zoneEuDNSProviderSolver κ × Option String) × World σ :=
  let r := env.NewForConfig kubeClientConfig
  let w := w.log (.info 6 ("Input variable stopCh is " ++ toString stopChLen ++ " length"))
  match r with
  | .error err => ((c, some err), w)
  | .ok k8sClient => (({ c with client := some k8sClient }, none), w)

/-- Lines 124-135: `loadConfig`. -/
def loadConfig (env : Env σ κ ρ) (cfgJSON : Option String) :
    zoneEuDNSProviderConfig × Option String :=
  let cfg : zoneEuDNSProviderConfig := { SecretRef := "", ZoneName := "", ApiUrl := "" }
  match cfgJSON with
  | none => (cfg, none)
  | some raw =>
    match env.UnmarshalConfig raw with
    | (cfg, some err) => (cfg, some ("error decoding solver config: " ++ err))
    | (cfg, none) => (cfg, none)

/-- Lines 138-144: `stringFromSecretData`. -/
def stringFromSecretData (secretData : List (String × String)) (key : String) :
    String × Option String :=
  match secretData.lookup key with
  | none => ("", some ("key " ++ quote key ++ " not found in secret data"))
  | some data => (data, none)

/-- Lines 162-196: `clientConfig`. -/
def clientConfig (env : Env σ κ ρ) (c : zoneEuDNSProviderSolver κ) (ch : ChallengeRequest) :
    Outcome (ApiConfig × Option String) :=
  let config : ApiConfig := { ApiUserName := "", ApiKey := "", ZoneName := "", ApiUrl := "" }
  match loadConfig env ch.Config with
  | (_, some err) => .ret (config, some err)
  | (cfg, none) =>
    let config := { config with ZoneName := cfg.ZoneName, ApiUrl := cfg.ApiUrl }
    let secretName := cfg.SecretRef
    match c.client with
    | none => .panic
    | some k =>
      match env.SecretsGet k ch.ResourceNamespace secretName with
      | .error err =>
        .ret (config, some ("unable to get secret \x60" ++ secretName ++ "/" ++
          ch.ResourceNamespace ++ "\x60; " ++ err))
      | .ok sec =>
        match stringFromSecretData sec.Data "api-key" with
        | (apiKey, err) =>
          let config := { config with ApiKey := TrimSpace apiKey }
          match err with
          | some err =>
            .ret (config, some ("unable to get api-key from secret \x60" ++ secretName ++ "/" ++
              ch.ResourceNamespace ++ "\x60; " ++ err))
          | none =>
            match stringFromSecretData sec.Data "api-username" with
            | (apiUsername, err) =>
              let config := { config with ApiUserName := TrimSpace apiUsername }
              match err with
              | some err =>
                .ret (config, some ("unable to get api-username from secret \x60" ++
                  secretName ++ "/" ++ ch.ResourceNamespace ++ "\x60; " ++ err))
              | none => .ret (config, none)

/-- Lines 199-206: the request `callDnsApi` builds once `http.NewRequest` has succeeded. -/
def buildRequest (url method : String) (body : Option String) (config : ApiConfig) : Request :=
  { Method := method
    URL := url
    Body := body
    Header := [("Content-Type", "application/json"), ("Accept", "application/json"),
      ("X-Api-Compatibility", "2.1")]
    BasicAuth := (config.ApiUserName, config.ApiKey) }

/-- Lines 198-229: `callDnsApi`.  Returns the pair `([]byte, error)` and the world after
the call.  The first branch is the failure of `http.NewRequest` (lines 199-202, nothing is
sent), the second the failure of `client.Do` (lines 209-212); `respBody` is what
`ioutil.ReadAll` returns, and the deferred close of lines 214-219 returns nil. -/
def callDnsApi (env : Env σ κ ρ) (url method : String) (body : Option String)
    (config : ApiConfig) (w : World σ) : (Option String × Option String) × World σ :=
  match env.NewRequest method url with
  | some err => ((some "", some ("unable to execute request " ++ err)), w)
  | none =>
    let req := buildRequest url method body config
    match env.Do w.net req with
    | (.error err, net) => ((none, some err), { w with net := net, Sent := w.Sent ++ [req] })
    | (.ok resp, net) =>
      let w : World σ := { w with net := net, Sent := w.Sent ++ [req] }
      let respBody := resp.Body
      if resp.StatusCode = 200 ∨ resp.StatusCode = 201 ∨ resp.StatusCode = 204 then
        ((some respBody, none), w)
      else
        let text := "Error calling API status:" ++ resp.Status ++ " url: " ++ url ++
          " method: " ++ method
        ((none, some text), w.log (.error text))

/-- Line 147: the URL `addTxtRecord` posts to. -/
def addTxtRecordUrl (config : ApiConfig) : String :=
  config.ApiUrl ++ "/dns/" ++ TrimRight config.ZoneName "." ++ "/txt"

/-- Lines 149-151: the body `addTxtRecord` posts, the result of
`fmt.Sprintf` on the pattern with two `%s` verbs. -/
def addTxtRecordBody (ch : ChallengeRequest) : String :=
  let name := TrimRight ch.ResolvedFQDN "."
  "\x7b\"destination\":\"" ++ ch.Key ++ "\", \"name\":\"" ++ name ++ "\"\x7d"

/-- Lines 146-160: `addTxtRecord`. -/
def addTxtRecord (env : Env σ κ ρ) (config : ApiConfig) (ch : ChallengeRequest)
    (w : World σ) : World σ :=
  let url := addTxtRecordUrl config
  let jsonStr := addTxtRecordBody ch
  match callDnsApi env url "POST" (some jsonStr) config w with
  | ((add, err), w) =>
    let w := match err with
      | some err => w.log (.error err)
      | none => w
    w.log (.info 0 ("Added TXT record result: " ++ add.getD ""))

/-- Lines 50-64: `Present`. -/
def Present (env : Env σ κ ρ) (c : zoneEuDNSProviderSolver κ) (ch : ChallengeRequest)
    (w : World σ) : Outcome (Option String) × World σ :=
  let w := w.log (.info 6 ("call function Present: namespace=" ++ ch.ResourceNamespace ++
    ", zone=" ++ ch.ResolvedZone ++ ", fqdn=" ++ ch.ResolvedFQDN))
  match clientConfig env c ch with
  | .panic => (.panic, w)
  | .ret (_, some err) =>
    (.ret (some ("unable to get secret \x60" ++ ch.ResourceNamespace ++ "\x60; " ++ err)), w)
  | .ret (config, none) =>
    let w := addTxtRecord env config ch w
    let w := w.log (.info 0 ("Presented txt record " ++ ch.ResolvedFQDN))
    (.ret none, w)

/-- Line 74: the URL `CleanUp` lists the records from. -/
def cleanUpListUrl (config : ApiConfig) : String :=
  config.ApiUrl ++ "/dns/" ++ config.ZoneName ++ "/txt"

/-- Line 101: the URL `CleanUp` sends the DELETE to. -/
def cleanUpDeleteUrl (config : ApiConfig) (recordId : String) : String :=
  config.ApiUrl ++ "/dns/" ++ TrimRight config.ZoneName "." ++ "/txt/" ++ recordId

/-- Lines 93-98: the loop of `CleanUp` with `n = i + 1` iterations left; the index runs
from `n - 1` down to 0 and the loop stops at the first record whose name is `name`.
`recordId` keeps its zero value when the loop ends without a match. -/
def scanRecords (records : List TxtRecord) (name : String) :
    (n : Nat) → n ≤ records.length → String
  | 0, _ => ""
  | i + 1, h =>
    if (records.get ⟨i, h⟩).Name = name then (records.get ⟨i, h⟩).Id
    else scanRecords records name i (Nat.le_of_succ_le h)

/-- Lines 91-98: the record id `CleanUp` selects. -/
def findRecordId (records : List TxtRecord) (fqdn : String) : String :=
  let name := TrimRight fqdn "."
  scanRecords records name records.length (Nat.le_refl _)

/-- Lines 67-109: `CleanUp`. -/
def CleanUp (env : Env σ κ ρ) (c : zoneEuDNSProviderSolver κ) (ch : ChallengeRequest)
    (w : World σ) : Outcome (Option String) × World σ :=
  match clientConfig env c ch with
  | .panic => (.panic, w)
  | .ret (_, some err) =>
    (.ret (some ("unable to get secret \x60" ++ ch.ResourceNamespace ++ "\x60; " ++ err)), w)
  | .ret (config, none) =>
    let url := cleanUpListUrl config
    match callDnsApi env url "GET" none config w with
    | ((_, some err), w) => (.ret (some ("unable to get DNS records " ++ err)), w)
    | ((dnsRecords, none), w) =>
      match env.UnmarshalRecords (dnsRecords.getD "") with
      | (_, some readErr) => (.ret (some ("unable to unmarshal response " ++ readErr)), w)
      | (records, none) =>
        let recordId := findRecordId records.Records ch.ResolvedFQDN
        let url := cleanUpDeleteUrl config recordId
        match callDnsApi env url "DELETE" none config w with
        | ((del, err), w) =>
          let w := match err with
            | some err => w.log (.error err)
            | none => w
          (.ret none, w.log (.info 0 ("TXT record deleted " ++ del.getD "")))

/-! ## Notions the properties are stated with -/

/-- The test `TrimRight s "."` applies to each trailing code point. -/
def isDot (c : Char) : Bool :=
  (".".data).contains c

/-- The DELETE requests among a list of requests. -/
def deletes (reqs : List Request) : List Request :=
  reqs.filter (fun r => r.Method = "DELETE")

/-! ### JSON objects (RFC 8259), for the body `addTxtRecord` posts

The decoder below reads a JSON text that is an object whose member values are strings,
the shape the create request of the provider's API has. -/

/-- Insignificant white space of JSON. -/
def jsonWs (c : Char) : Bool :=
  c = ' ' || c = '\t' || c = '\n' || c = '\r'

/-- The value of a hexadecimal digit. -/
def hexDigit (c : Char) : Option Nat :=
  let n := c.toNat
  if 48 ≤ n ∧ n ≤ 57 then some (n - 48)
  else if 97 ≤ n ∧ n ≤ 102 then some (n - 87)
  else if 65 ≤ n ∧ n ≤ 70 then some (n - 55)
  else none

/-- The character a two-character escape of a JSON string stands for. -/
def jsonEscape (e : Char) : Option Char :=
  if e = '"' then some '"'
  else if e = '\\' then some '\\'
  else if e = '/' then some '/'
  else if e = 'b' then some (Char.ofNat 8)
  else if e = 'f' then some (Char.ofNat 12)
  else if e = 'n' then some (Char.ofNat 10)
  else if e = 'r' then some (Char.ofNat 13)
  else if e = 't' then some (Char.ofNat 9)
  else none

/-- The character of a `\uXXXX` escape; a surrogate code unit gives U+FFFD (pairs are
not combined). -/
def jsonCodeUnit (n : Nat) : Char :=
  if 0xD800 ≤ n ∧ n ≤ 0xDFFF then Char.ofNat 0xFFFD else Char.ofNat n

/-- Reads a JSON string from just after its opening quote: the decoded content and the
input left after the closing quote.  Fails on an unescaped control character, a bad escape
or a missing closing quote. -/
def jsonString : List Char → Option (List Char × List Char)
  | [] => none
  | c :: cs =>
    if c = '"' then some ([], cs)
    else if c = '\\' then
      match cs with
      | [] => none
      | e :: cs1 =>
        if e = 'u' then
          match cs1 with
          | a :: b :: c2 :: d :: cs2 =>
            match hexDigit a, hexDigit b, hexDigit c2, hexDigit d with
            | some x, some y, some z, some t =>
              (jsonString cs2).map
                (fun p => (jsonCodeUnit (((x * 16 + y) * 16 + z) * 16 + t) :: p.1, p.2))
            | _, _, _, _ => none
          | _ => none
        else
          match jsonEscape e with
          | some x => (jsonString cs1).map (fun p => (x :: p.1, p.2))
          | none => none
    else if c.toNat < 0x20 then none
    else (jsonString cs).map (fun p => (c :: p.1, p.2))

/-- Skips white space, then reads the character `c`. -/
def jsonToken (c : Char) (cs : List Char) : Option (List Char) :=
  match cs.dropWhile jsonWs with
  | [] => none
  | d :: r => if d = c then some r else none

/-- Reads the members of an object up to and including the closing brace and the end of
the text; `fuel` bounds the number of members. -/
def jsonMembers : Nat → List Char → Option (List (String × String))
  | 0, _ => none
  | fuel + 1, cs =>
    match jsonToken '"' cs with
    | none => none
    | some r0 =>
      match jsonString r0 with
      | none => none
      | some (k, r1) =>
        match jsonToken ':' r1 with
        | none => none
        | some r2 =>
          match jsonToken '"' r2 with
          | none => none
          | some r3 =>
            match jsonString r3 with
            | none => none
            | some (v, r4) =>
              match jsonToken ',' r4 with
              | some r5 =>
                (jsonMembers fuel r5).map (fun ms => (String.mk k, String.mk v) :: ms)
              | none =>
                match jsonToken '}' r4 with
                | some r5 =>
                  if r5.dropWhile jsonWs = [] then some [(String.mk k, String.mk v)]
                  else none
                | none => none

/-- Decodes a JSON text that is an object with string values: its members in order, or
`none` when the text is not such an object. -/
def decodeJsonObject (s : String) : Option (List (String × String)) :=
  match jsonToken '{' s.data with
  | none => none
  | some r =>
    match jsonToken '}' r with
    | some r1 => if r1.dropWhile jsonWs = [] then some [] else none
    | none => jsonMembers s.length r

/-- A character that stands for itself inside a JSON string. -/
def jsonPlainChar (c : Char) : Bool :=
  c != '"' && c != '\\' && decide (0x20 ≤ c.toNat)

/-- A string that `fmt.Sprintf("%s")` puts between two quotes as a JSON string of the same
value: no double quote, no backslash, no control character. -/
def jsonPlain (s : String) : Bool :=
  s.data.all jsonPlainChar

/-! ### Concrete environments -/

/-- The first check of `url.Parse`, through which `http.NewRequest` fails on a URL holding
an ASCII control character (a byte below 0x20, or 0x7f); every other URL is accepted here.
The message stands for `parse "<url>": net/url: invalid control character in URL`. -/
def rejectControl (_method url : String) : Option String :=
  if url.data.any (fun c => c.toNat < 0x20 || c.toNat = 0x7f) then
    some "net/url: invalid control character in URL"
  else none

/-- An environment with one cluster, a secret store answering every lookup with `secret`,
a fixed solver configuration, a list decoder answering `records`, and a provider that
answers each request by `answer`. -/
def demoEnv (answer : Request → Except String Response)
    (records : TxtRecordResponse × Option String) (secret : Except String Secret) :
    Env Unit Unit Unit :=
  { NewForConfig := fun _ => .ok ()
    SecretsGet := fun _ _ _ => secret
    UnmarshalConfig := fun _ =>
      ({ SecretRef := "zone-eu-secret", ZoneName := "example.com.",
         ApiUrl := "https://api.zone.eu/v2" }, none)
    UnmarshalRecords := fun _ => records
    NewRequest := rejectControl
    Do := fun s req => (answer req, s) }

/-- A secret with both keys. -/
def demoSecret : Secret :=
  { Data := [("api-key", "k"), ("api-username", "u")] }

/-- A challenge request for `_acme-challenge.example.com.`. -/
def demoChallenge : ChallengeRequest :=
  { ResourceNamespace := "default"
    ResolvedZone := "example.com."
    ResolvedFQDN := "_acme-challenge.example.com."
    Key := "tok"
    Config := some "cfg" }

/-- An initialised solver. -/
def demoSolver : zoneEuDNSProviderSolver Unit :=
  { client := some () }

/-- The world before a call. -/
def demoWorld : World Unit :=
  { net := (), Sent := [], Klog := [] }

/-- A provider whose connection fails on every request. -/
def answerRefused (_req : Request) : Except String Response :=
  .error "dial tcp: connection refused"

/-- A list response with one record of the challenge name whose id is the control
character U+0001. -/
def demoListBody : String :=
  "\x7b\"data\":[\x7b\"id\":\"\\u0001\",\"name\":\"_acme-challenge.example.com\"\x7d]\x7d"

/-- A provider answering every request with the given status and body. -/
def answerWith (code : Int) (status body : String) (_req : Request) :
    Except String Response :=
  .ok { Status := status, StatusCode := code, Body := body }

/-- A record named as the challenge FQDN without its dot. -/
def demoRecord (id : String) : TxtRecord :=
  { Id := id, ResourceUrl := "", Name := "_acme-challenge.example.com", Destination := "tok" }

/-- The configuration `clientConfig` resolves in `demoEnv` with `demoSecret`. -/
def demoConfig : ApiConfig :=
  { ApiUserName := "u", ApiKey := "k", ZoneName := "example.com.",
    ApiUrl := "https://api.zone.eu/v2" }

/-- A provider that answers a GET with 200 and every other request with 500. -/
def answerListOnly (req : Request) : Except String Response :=
  if req.Method = "GET" then answerWith 200 "200 OK" "list" req
  else answerWith 500 "500 Internal Server Error" "" req

/-! ## Properties -/

/-! ## Facts about `TrimRight` -/


theorem isDot_iff (c : Char) : isDot c = true ↔ c = '.' := by
  simp [isDot]

theorem TrimRight_dot_data (s : String) :
    (TrimRight s ".").data = s.data.rdropWhile isDot := rfl

theorem rdropWhile_isDot_decomp (l : List Char) :
    ∃ k, l = l.rdropWhile isDot ++ List.replicate k '.' := by
  induction l using List.reverseRecOn with
  | nil => exact ⟨0, by simp⟩
  | append_singleton l a ih =>
    by_cases h : isDot a = true
    · obtain ⟨k, hk⟩ := ih
      refine ⟨k + 1, ?_⟩
      rw [List.rdropWhile_concat_pos _ _ _ h]
      have ha : a = '.' := (isDot_iff a).1 h
      subst ha
      rw [List.replicate_succ', ← List.append_assoc, ← hk]
    · refine ⟨0, ?_⟩
      rw [List.rdropWhile_concat_neg _ _ _ h]
      simp

theorem rdropWhile_isDot_getLast (l : List Char) :
    (l.rdropWhile isDot).getLast? ≠ some '.' := by
  intro h
  have hne : l.rdropWhile isDot ≠ [] := by
    intro h0
    rw [h0] at h
    simp at h
  have hlast := List.rdropWhile_last_not isDot l hne
  rw [List.getLast?_eq_getLast _ hne] at h
  have h2 : (l.rdropWhile isDot).getLast hne = '.' := Option.some.inj h
  rw [h2] at hlast
  exact hlast ((isDot_iff _).2 rfl)

/-- C6. For every FQDN, the normalized name `strings.TrimRight(fqdn, ".")` used by
`Present` and `CleanUp` does not end in a dot, the FQDN is the normalized name followed
only by dots, and normalizing the normalized name returns it unchanged. -/
theorem TrimRight_dot_normalizes (fqdn : String) :
    (TrimRight fqdn ".").data.getLast? ≠ some '.' ∧
    (∃ k, fqdn = TrimRight fqdn "." ++ String.mk (List.replicate k '.')) ∧
    TrimRight (TrimRight fqdn ".") "." = TrimRight fqdn "." := by
  refine ⟨?_, ?_, ?_⟩
  · rw [TrimRight_dot_data]
    exact rdropWhile_isDot_getLast _
  · obtain ⟨k, hk⟩ := rdropWhile_isDot_decomp fqdn.data
    refine ⟨k, ?_⟩
    apply String.ext
    rw [String.data_append, TrimRight_dot_data]
    exact hk
  · apply String.ext
    rw [TrimRight_dot_data, TrimRight_dot_data]
    exact List.rdropWhile_idempotent isDot _

/-! ## `callDnsApi` -/

/-- C1. For every HTTP response `callDnsApi` obtains (the request was built and the round
trip gave `resp`), the call returns a nil error if and only if the status code is 200, 201
or 204; in that case the returned bytes are exactly the body read from the response, and
for every other status code it returns an error and a nil byte slice. -/
theorem callDnsApi_success_iff_status (env : Env σ κ ρ) (url method : String)
    (body : Option String) (config : ApiConfig) (w : World σ) (resp : Response) (net : σ)
    (hreq : env.NewRequest method url = none)
    (hdo : env.Do w.net (buildRequest url method body config) = (.ok resp, net)) :
    ((callDnsApi env url method body config w).1.2 = none ↔
      (resp.StatusCode = 200 ∨ resp.StatusCode = 201 ∨ resp.StatusCode = 204)) ∧
    ((resp.StatusCode = 200 ∨ resp.StatusCode = 201 ∨ resp.StatusCode = 204) →
      (callDnsApi env url method body config w).1 = (some resp.Body, none)) ∧
    (¬ (resp.StatusCode = 200 ∨ resp.StatusCode = 201 ∨ resp.StatusCode = 204) →
      (callDnsApi env url method body config w).1.1 = none ∧
      ∃ text, (callDnsApi env url method body config w).1.2 = some text) := by
  by_cases hs : resp.StatusCode = 200 ∨ resp.StatusCode = 201 ∨ resp.StatusCode = 204
  · simp [callDnsApi, hreq, hdo, hs]
  · simp [callDnsApi, hreq, hdo, hs]

/-- C1 at a provider answering 204 with an empty body, and at one answering 404. -/
theorem callDnsApi_success_iff_status_witness :
    (demoEnv (answerWith 204 "204 No Content" "") (⟨[], ""⟩, none) (.ok demoSecret)).NewRequest
      "DELETE" "https://api.zone.eu/v2/dns/example.com/txt/7" = none ∧
    (demoEnv (answerWith 204 "204 No Content" "") (⟨[], ""⟩, none) (.ok demoSecret)).Do
      demoWorld.net (buildRequest "https://api.zone.eu/v2/dns/example.com/txt/7" "DELETE" none
        demoConfig) =
      (.ok { Status := "204 No Content", StatusCode := 204, Body := "" }, ()) ∧
    (callDnsApi (demoEnv (answerWith 204 "204 No Content" "") (⟨[], ""⟩, none)
      (.ok demoSecret)) "https://api.zone.eu/v2/dns/example.com/txt/7" "DELETE" none
      demoConfig demoWorld).1 = (some "", none) ∧
    (callDnsApi (demoEnv (answerWith 404 "404 Not Found" "gone") (⟨[], ""⟩, none)
      (.ok demoSecret)) "https://api.zone.eu/v2/dns/example.com/txt/7" "DELETE" none
      demoConfig demoWorld).1.1 = none :=
  ⟨by decide, by rfl,
    (callDnsApi_success_iff_status
      (demoEnv (answerWith 204 "204 No Content" "") (⟨[], ""⟩, none) (.ok demoSecret))
      "https://api.zone.eu/v2/dns/example.com/txt/7" "DELETE" none demoConfig demoWorld
      { Status := "204 No Content", StatusCode := 204, Body := "" } () (by decide)
      (by rfl)).2.1 (by decide),
    ((callDnsApi_success_iff_status
      (demoEnv (answerWith 404 "404 Not Found" "gone") (⟨[], ""⟩, none) (.ok demoSecret))
      "https://api.zone.eu/v2/dns/example.com/txt/7" "DELETE" none demoConfig demoWorld
      { Status := "404 Not Found", StatusCode := 404, Body := "gone" } () (by decide)
      (by rfl)).2.2 (by decide)).1⟩

/-! ## `Present` and `CleanUp`: which errors reach the caller -/

/-- C2. For every challenge request, `Present` returns an error if and only if
`clientConfig` returns one; once `clientConfig` returns a nil error, `Present` returns nil
whatever the environment answers to the create request (any status, or a transport
failure). -/
theorem Present_error_iff_clientConfig_error (env : Env σ κ ρ)
    (c : zoneEuDNSProviderSolver κ) (ch : ChallengeRequest) (w : World σ) :
    ((∃ e, (Present env c ch w).1 = .ret (some e)) ↔
      ∃ config e, clientConfig env c ch = .ret (config, some e)) ∧
    (∀ config, clientConfig env c ch = .ret (config, none) →
      (Present env c ch w).1 = .ret none) := by
  rcases h : clientConfig env c ch with ⟨config, _ | e⟩ | _ <;> simp [Present, h]

/-- C2 at providers answering HTTP 201, HTTP 500, and refusing the connection: the
credentials resolve and `Present` returns nil each time. -/
theorem Present_error_iff_clientConfig_error_witness :
    clientConfig (demoEnv (answerWith 500 "500 Internal Server Error" "") (⟨[], ""⟩, none)
      (.ok demoSecret)) demoSolver demoChallenge = .ret (demoConfig, none) ∧
    (Present (demoEnv (answerWith 201 "201 Created" "") (⟨[], ""⟩, none)
      (.ok demoSecret)) demoSolver demoChallenge demoWorld).1 = .ret none ∧
    (Present (demoEnv (answerWith 500 "500 Internal Server Error" "") (⟨[], ""⟩, none)
      (.ok demoSecret)) demoSolver demoChallenge demoWorld).1 = .ret none ∧
    (Present (demoEnv answerRefused (⟨[], ""⟩, none)
      (.ok demoSecret)) demoSolver demoChallenge demoWorld).1 = .ret none :=
  ⟨by decide,
    (Present_error_iff_clientConfig_error
      (demoEnv (answerWith 201 "201 Created" "") (⟨[], ""⟩, none)
        (.ok demoSecret)) demoSolver demoChallenge demoWorld).2 demoConfig (by decide),
    (Present_error_iff_clientConfig_error
      (demoEnv (answerWith 500 "500 Internal Server Error" "") (⟨[], ""⟩, none)
        (.ok demoSecret)) demoSolver demoChallenge demoWorld).2 demoConfig (by decide),
    (Present_error_iff_clientConfig_error
      (demoEnv answerRefused (⟨[], ""⟩, none)
        (.ok demoSecret)) demoSolver demoChallenge demoWorld).2 demoConfig (by decide)⟩

/-- C3. For every challenge request, `CleanUp` returns an error if and only if
`clientConfig` returns one, or the list (GET) call returns one, or the list call succeeds
and its body fails to decode; once the list call succeeds and decodes, `CleanUp` returns
nil whatever the DELETE call returns. -/
theorem CleanUp_error_iff (env : Env σ κ ρ) (c : zoneEuDNSProviderSolver κ)
    (ch : ChallengeRequest) (w : World σ) :
    ((∃ e, (CleanUp env c ch w).1 = .ret (some e)) ↔
      (∃ config e, clientConfig env c ch = .ret (config, some e)) ∨
      (∃ config, clientConfig env c ch = .ret (config, none) ∧
        ((∃ e, (callDnsApi env (cleanUpListUrl config) "GET" none config w).1.2 = some e) ∨
         ((callDnsApi env (cleanUpListUrl config) "GET" none config w).1.2 = none ∧
          ∃ e, (env.UnmarshalRecords
            ((callDnsApi env (cleanUpListUrl config) "GET" none config w).1.1.getD "")).2 =
              some e)))) ∧
    (∀ config, clientConfig env c ch = .ret (config, none) →
      (callDnsApi env (cleanUpListUrl config) "GET" none config w).1.2 = none →
      (env.UnmarshalRecords
        ((callDnsApi env (cleanUpListUrl config) "GET" none config w).1.1.getD "")).2 = none →
      (CleanUp env c ch w).1 = .ret none) := by
  rcases h : clientConfig env c ch with ⟨config, _ | e⟩ | _
  · rcases hl : callDnsApi env (cleanUpListUrl config) "GET" none config w with
      ⟨⟨dnsRecords, _ | e⟩, w1⟩
    · rcases hd : env.UnmarshalRecords (dnsRecords.getD "") with ⟨records, _ | e⟩
      · simp [CleanUp, h, hl, hd]
      · simp [CleanUp, h, hl, hd]
    · simp [CleanUp, h, hl]
  · simp [CleanUp, h]
  · simp [CleanUp, h]

/-- C3 at a provider that answers the GET with 200 and the DELETE with 500: the list step
succeeds and decodes, and `CleanUp` returns nil. -/
theorem CleanUp_error_iff_witness :
    clientConfig (demoEnv answerListOnly (⟨[demoRecord "7"], ""⟩, none) (.ok demoSecret))
      demoSolver demoChallenge = .ret (demoConfig, none) ∧
    (callDnsApi (demoEnv answerListOnly (⟨[demoRecord "7"], ""⟩, none) (.ok demoSecret))
      (cleanUpListUrl demoConfig) "GET" none demoConfig demoWorld).1 = (some "list", none) ∧
    (callDnsApi (demoEnv answerListOnly (⟨[demoRecord "7"], ""⟩, none) (.ok demoSecret))
      (cleanUpDeleteUrl demoConfig "7") "DELETE" none demoConfig demoWorld).1.2 =
      some ("Error calling API status:500 Internal Server Error url: " ++
        "https://api.zone.eu/v2/dns/example.com/txt/7 method: DELETE") ∧
    (CleanUp (demoEnv answerListOnly (⟨[demoRecord "7"], ""⟩, none) (.ok demoSecret))
      demoSolver demoChallenge demoWorld).1 = .ret none :=
  ⟨by decide, by decide, by decide,
    (CleanUp_error_iff (demoEnv answerListOnly (⟨[demoRecord "7"], ""⟩, none)
      (.ok demoSecret)) demoSolver demoChallenge demoWorld).2 demoConfig
      (by decide) (by decide) (by decide)⟩

/-! ## `clientConfig` and `Initialize` -/

/-- C5. For every secret found in the store (the configuration decodes and the lookup
returns the secret), `clientConfig` returns an error whenever the secret's data lacks the
key `api-key`, whatever it holds under `api-username`, and whenever it lacks
`api-username`; it returns a nil error if and only if both keys are present. -/
theorem clientConfig_needs_both_keys (env : Env σ κ ρ) (c : zoneEuDNSProviderSolver κ)
    (ch : ChallengeRequest) (k : κ) (cfg : zoneEuDNSProviderConfig) (sec : Secret)
    (hc : c.client = some k) (hcfg : loadConfig env ch.Config = (cfg, none))
    (hsec : env.SecretsGet k ch.ResourceNamespace cfg.SecretRef = .ok sec) :
    (sec.Data.lookup "api-key" = none →
      ∃ config e, clientConfig env c ch = .ret (config, some e)) ∧
    (sec.Data.lookup "api-username" = none →
      ∃ config e, clientConfig env c ch = .ret (config, some e)) ∧
    ((∃ config, clientConfig env c ch = .ret (config, none)) ↔
      (sec.Data.lookup "api-key").isSome ∧ (sec.Data.lookup "api-username").isSome) := by
  rcases hk : sec.Data.lookup "api-key" with _ | key <;>
    rcases hu : sec.Data.lookup "api-username" with _ | user <;>
    simp [clientConfig, stringFromSecretData, hc, hcfg, hsec, hk, hu]

/-- C5 at a secret that holds `api-username` but no `api-key`: `clientConfig` returns an
error. -/
theorem clientConfig_needs_both_keys_witness :
    demoSolver.client = some () ∧
    loadConfig (demoEnv (answerWith 201 "201 Created" "") (⟨[], ""⟩, none)
      (.ok { Data := [("api-username", "u")] })) demoChallenge.Config =
      ({ SecretRef := "zone-eu-secret", ZoneName := "example.com.",
         ApiUrl := "https://api.zone.eu/v2" }, none) ∧
    (demoEnv (answerWith 201 "201 Created" "") (⟨[], ""⟩, none)
      (.ok { Data := [("api-username", "u")] })).SecretsGet () "default" "zone-eu-secret" =
      .ok { Data := [("api-username", "u")] } ∧
    List.lookup "api-key" [("api-username", "u")] = none ∧
    ∃ config e, clientConfig (demoEnv (answerWith 201 "201 Created" "") (⟨[], ""⟩, none)
      (.ok { Data := [("api-username", "u")] })) demoSolver demoChallenge =
      .ret (config, some e) :=
  ⟨by rfl, by rfl, by rfl, by decide,
    (clientConfig_needs_both_keys
      (demoEnv (answerWith 201 "201 Created" "") (⟨[], ""⟩, none)
        (.ok { Data := [("api-username", "u")] })) demoSolver demoChallenge ()
      { SecretRef := "zone-eu-secret", ZoneName := "example.com.",
        ApiUrl := "https://api.zone.eu/v2" }
      { Data := [("api-username", "u")] } (by rfl) (by rfl) (by rfl)).1 (by decide)⟩

/-- C9. For every solver state and every cluster access configuration, when
`kubernetes.NewForConfig` fails `Initialize` returns that error and leaves the solver,
hence its client handle, unchanged (unset if it was unset); when it succeeds `Initialize`
returns nil and the handle is the constructed client. -/
theorem Initialize_handle (env : Env σ κ ρ) (c : zoneEuDNSProviderSolver κ)
    (kubeClientConfig : ρ) (stopChLen : Nat) (w : World σ) :
    (∀ err, env.NewForConfig kubeClientConfig = .error err →
      (Initialize env c kubeClientConfig stopChLen w).1 = (c, some err)) ∧
    (∀ k8sClient, env.NewForConfig kubeClientConfig = .ok k8sClient →
      (Initialize env c kubeClientConfig stopChLen w).1.2 = none ∧
      (Initialize env c kubeClientConfig stopChLen w).1.1.client = some k8sClient) := by
  constructor
  · intro err h
    simp [Initialize, h]
  · intro k h
    simp [Initialize, h]

/-- C9 at a cluster configuration the client constructor rejects, on a solver whose
handle is unset: the error is returned and the handle stays unset. -/
theorem Initialize_handle_witness :
    ({ (demoEnv (answerWith 201 "201 Created" "") (⟨[], ""⟩, none) (.ok demoSecret)) with
        NewForConfig := fun _ => .error "malformed" } : Env Unit Unit Unit).NewForConfig () =
      .error "malformed" ∧
    (Initialize ({ (demoEnv (answerWith 201 "201 Created" "") (⟨[], ""⟩, none)
        (.ok demoSecret)) with NewForConfig := fun _ => .error "malformed" } :
        Env Unit Unit Unit) { client := none } () 0 demoWorld).1 =
      ({ client := none }, some "malformed") :=
  ⟨by rfl,
    (Initialize_handle ({ (demoEnv (answerWith 201 "201 Created" "") (⟨[], ""⟩, none)
        (.ok demoSecret)) with NewForConfig := fun _ => .error "malformed" } :
        Env Unit Unit Unit) { client := none } () 0 demoWorld).1 "malformed" (by rfl)⟩

/-! ## The three URLs -/

theorem TrimRight_dot_eq_self_iff (s : String) :
    TrimRight s "." = s ↔ s.data.getLast? ≠ some '.' := by
  rw [String.ext_iff, TrimRight_dot_data, List.rdropWhile_eq_self_iff]
  constructor
  · intro h hlast
    have hne : s.data ≠ [] := by
      intro h0
      rw [h0] at hlast
      simp at hlast
    rw [List.getLast?_eq_getLast _ hne] at hlast
    exact h hne ((isDot_iff _).2 (Option.some.inj hlast))
  · intro h hne hdot
    apply h
    rw [List.getLast?_eq_getLast _ hne, (isDot_iff _).1 hdot]

theorem append_middle_inj (a b x y : String) :
    a ++ x ++ b = a ++ y ++ b ↔ x = y := by
  constructor
  · intro h
    have h2 := congrArg String.data h
    simp only [String.data_append, List.append_assoc] at h2
    exact String.ext (List.append_cancel_right (List.append_cancel_left h2))
  · intro h
    rw [h]

/-- C10. For every resolved configuration, the URL `CleanUp` lists the records from (zone
name untrimmed) equals the URL `addTxtRecord` creates the record at (zone name
right-trimmed of dots) if and only if the zone name does not end in a dot; the DELETE URL
is always the create URL followed by "/" and the record id.  So for a zone name ending in
a dot the list goes to a different path from the create and the delete. -/
theorem listUrl_eq_createUrl_iff (config : ApiConfig) :
    (cleanUpListUrl config = addTxtRecordUrl config ↔
      config.ZoneName.data.getLast? ≠ some '.') ∧
    (∀ recordId, cleanUpDeleteUrl config recordId =
      addTxtRecordUrl config ++ "/" ++ recordId) ∧
    (config.ZoneName.data.getLast? = some '.' →
      cleanUpListUrl config ≠ addTxtRecordUrl config ∧
      ∀ recordId, cleanUpDeleteUrl config recordId ≠ cleanUpListUrl config ++ "/" ++ recordId) := by
  have hiff : cleanUpListUrl config = addTxtRecordUrl config ↔
      config.ZoneName.data.getLast? ≠ some '.' := by
    unfold cleanUpListUrl addTxtRecordUrl
    rw [append_middle_inj, ← TrimRight_dot_eq_self_iff]
    exact eq_comm
  have hdel : ∀ recordId, cleanUpDeleteUrl config recordId =
      addTxtRecordUrl config ++ "/" ++ recordId := by
    intro recordId
    unfold cleanUpDeleteUrl addTxtRecordUrl
    apply String.ext
    simp [String.data_append]
  refine ⟨hiff, hdel, ?_⟩
  intro hdot
  have hne : cleanUpListUrl config ≠ addTxtRecordUrl config := fun h => hiff.1 h hdot
  refine ⟨hne, ?_⟩
  intro recordId h
  rw [hdel recordId, String.append_assoc, String.append_assoc] at h
  apply hne
  have h2 := congrArg String.data h
  simp only [String.data_append] at h2
  exact (String.ext (List.append_cancel_right h2)).symm

/-- C10 at the zone name `example.com.`: the list URL keeps the dot, the create URL does
not. -/
theorem listUrl_eq_createUrl_iff_witness :
    demoConfig.ZoneName.data.getLast? = some '.' ∧
    cleanUpListUrl demoConfig = "https://api.zone.eu/v2/dns/example.com./txt" ∧
    addTxtRecordUrl demoConfig = "https://api.zone.eu/v2/dns/example.com/txt" ∧
    cleanUpListUrl demoConfig ≠ addTxtRecordUrl demoConfig :=
  ⟨by decide, by decide, by decide,
    ((listUrl_eq_createUrl_iff demoConfig).2.2 (by decide)).1⟩

/-! ## The record `CleanUp` deletes -/

theorem scanRecords_none (records : List TxtRecord) (name : String) :
    ∀ (n : Nat) (h : n ≤ records.length),
      (∀ (i : Nat) (hi : i < records.length), i < n → (records.get ⟨i, hi⟩).Name ≠ name) →
      scanRecords records name n h = "" := by
  intro n
  induction n with
  | zero => intro h _; rfl
  | succ n ih =>
    intro h hno
    unfold scanRecords
    rw [if_neg (hno n h (Nat.lt_succ_self n))]
    exact ih _ (fun i hi hin => hno i hi (Nat.lt_succ_of_lt hin))

theorem scanRecords_found (records : List TxtRecord) (name : String) (j : Nat)
    (hj : j < records.length) (hname : (records.get ⟨j, hj⟩).Name = name) :
    ∀ (n : Nat) (h : n ≤ records.length), j < n →
      (∀ (i : Nat) (hi : i < records.length), j < i → i < n →
        (records.get ⟨i, hi⟩).Name ≠ name) →
      scanRecords records name n h = (records.get ⟨j, hj⟩).Id := by
  intro n
  induction n with
  | zero => intro _ hjn; exact absurd hjn (Nat.not_lt_zero j)
  | succ n ih =>
    intro h hjn hno
    unfold scanRecords
    by_cases hjeq : j = n
    · subst hjeq
      rw [if_pos hname]
    · have hlt : j < n := by omega
      rw [if_neg (hno n h hlt (Nat.lt_succ_self n))]
      exact ih _ hlt (fun i hi hji hin => hno i hi hji (Nat.lt_succ_of_lt hin))

theorem findRecordId_no_match (records : List TxtRecord) (fqdn : String)
    (hno : ∀ r ∈ records, r.Name ≠ TrimRight fqdn ".") : findRecordId records fqdn = "" :=
  scanRecords_none records (TrimRight fqdn ".") records.length (Nat.le_refl _)
    (fun i hi _ => hno _ (List.get_mem records i hi))

/-- C4, amended. For every decoded record list and every FQDN, the record id `CleanUp`
selects is the id of the last record in list order whose name equals the FQDN with its
trailing dots stripped (with two records of that name the later one is chosen), and it is
the empty string whenever no record in the list has that name. -/
theorem findRecordId_last_match (records : List TxtRecord) (fqdn : String) :
    (∀ (pre post : List TxtRecord) (r : TxtRecord), records = pre ++ r :: post →
      r.Name = TrimRight fqdn "." → (∀ x ∈ post, x.Name ≠ TrimRight fqdn ".") →
      findRecordId records fqdn = r.Id) ∧
    ((∀ r ∈ records, r.Name ≠ TrimRight fqdn ".") → findRecordId records fqdn = "") := by
  constructor
  · intro pre post r hrec hname hpost
    subst hrec
    have hj : pre.length < (pre ++ r :: post).length := by simp
    have hget : (pre ++ r :: post).get ⟨pre.length, hj⟩ = r := by
      rw [List.get_eq_getElem]
      exact List.getElem_of_append rfl rfl
    have h := scanRecords_found (pre ++ r :: post) (TrimRight fqdn ".") pre.length hj
      (by rw [hget]; exact hname) (pre ++ r :: post).length (Nat.le_refl _) hj
      (by
        intro i hi hji _
        apply hpost
        have hmem : (pre ++ r :: post).get ⟨i, hi⟩ ∈ (pre ++ r :: post).drop (pre.length + 1) := by
          rw [List.mem_iff_getElem]
          refine ⟨i - (pre.length + 1), ?_, ?_⟩
          · simp at hi ⊢
            omega
          · simp only [List.getElem_drop, List.get_eq_getElem]
            congr 1
            omega
        simpa using hmem)
    rw [hget] at h
    exact h
  · exact findRecordId_no_match records fqdn

/-- C4, amended, at a list with two records of the challenge name: the later one is
chosen. -/
theorem findRecordId_last_match_witness :
    [demoRecord "7", demoRecord "8", { demoRecord "9" with Name := "other.example.com" }] =
      [demoRecord "7"] ++ demoRecord "8" ::
        [{ demoRecord "9" with Name := "other.example.com" }] ∧
    (demoRecord "8").Name = TrimRight "_acme-challenge.example.com." "." ∧
    (∀ x ∈ [{ demoRecord "9" with Name := "other.example.com" }],
      x.Name ≠ TrimRight "_acme-challenge.example.com." ".") ∧
    findRecordId
      [demoRecord "7", demoRecord "8", { demoRecord "9" with Name := "other.example.com" }]
      "_acme-challenge.example.com." = "8" :=
  ⟨by rfl, by decide, by decide,
    (findRecordId_last_match
      [demoRecord "7", demoRecord "8", { demoRecord "9" with Name := "other.example.com" }]
      "_acme-challenge.example.com.").1 [demoRecord "7"]
      [{ demoRecord "9" with Name := "other.example.com" }] (demoRecord "8")
      (by rfl) (by decide) (by decide)⟩

/-- C4 as stated fails: a record of the challenge name whose id is empty (a list entry
without an `id` field decodes so) is selected, and the selected id is the empty string
although a record in the list has the name. -/
theorem findRecordId_empty_with_match :
    findRecordId [demoRecord ""] "_acme-challenge.example.com." = "" ∧
    (demoRecord "") ∈ [demoRecord ""] ∧
    (demoRecord "").Name = TrimRight "_acme-challenge.example.com." "." ∧
    ¬ (findRecordId [demoRecord ""] "_acme-challenge.example.com." = "" ↔
      ∀ r ∈ [demoRecord ""], r.Name ≠ TrimRight "_acme-challenge.example.com." ".") := by
  decide

/-! ## The requests put on the wire -/

theorem log_Sent (w : World σ) (l : LogLine) : (w.log l).Sent = w.Sent := rfl

theorem log_net (w : World σ) (l : LogLine) : (w.log l).net = w.net := rfl

theorem callDnsApi_Sent (env : Env σ κ ρ) (url method : String) (body : Option String)
    (config : ApiConfig) (w : World σ) :
    (callDnsApi env url method body config w).2.Sent =
      w.Sent ++ (if env.NewRequest method url = none then
        [buildRequest url method body config] else []) := by
  rcases hreq : env.NewRequest method url with _ | e
  · rcases hdo : env.Do w.net (buildRequest url method body config) with ⟨_ | resp, net⟩
    · simp [callDnsApi, hreq, hdo]
    · by_cases hs : resp.StatusCode = 200 ∨ resp.StatusCode = 201 ∨ resp.StatusCode = 204
      · simp [callDnsApi, hreq, hdo, hs]
      · simp [callDnsApi, hreq, hdo, hs, log_Sent]
  · simp [callDnsApi, hreq]

theorem callDnsApi_net_log (env : Env σ κ ρ) (url method : String) (body : Option String)
    (config : ApiConfig) (w : World σ) (l : LogLine) :
    (callDnsApi env url method body config (w.log l)).2.net =
      (callDnsApi env url method body config w).2.net := by
  rcases hreq : env.NewRequest method url with _ | e
  · rcases hdo : env.Do w.net (buildRequest url method body config) with ⟨_ | resp, net⟩
    · simp [callDnsApi, hreq, hdo, World.log]
    · by_cases hs : resp.StatusCode = 200 ∨ resp.StatusCode = 201 ∨ resp.StatusCode = 204
      · simp [callDnsApi, hreq, hdo, hs, World.log]
      · simp [callDnsApi, hreq, hdo, hs, World.log]
  · simp [callDnsApi, hreq, World.log]

theorem callDnsApi_nil_error_sent (env : Env σ κ ρ) (url method : String)
    (body : Option String) (config : ApiConfig) (w : World σ)
    (h : (callDnsApi env url method body config w).1.2 = none) :
    env.NewRequest method url = none := by
  rcases hreq : env.NewRequest method url with _ | e
  · rfl
  · simp [callDnsApi, hreq] at h

/-- C8, amended. For every `CleanUp` call in which the list request succeeds and decodes,
`CleanUp` makes exactly one DELETE call, on the URL apiUrl + "/dns/" + (zone name
right-trimmed of dots) + "/txt/" + recordId: what the call leaves of the provider and of the
requests sent is what that one `callDnsApi` leaves after the list.  The requests sent are
the GET followed by exactly one DELETE to that URL when `http.NewRequest` accepts the URL,
and the GET alone when it rejects it.  When no record matches the normalized FQDN the URL
ends in "/txt/" with an empty id segment. -/
theorem CleanUp_requests (env : Env σ κ ρ) (c : zoneEuDNSProviderSolver κ)
    (ch : ChallengeRequest) (w w1 : World σ) (config : ApiConfig)
    (dnsRecords : Option String) (records : TxtRecordResponse)
    (hc : clientConfig env c ch = .ret (config, none))
    (hl : callDnsApi env (cleanUpListUrl config) "GET" none config w = ((dnsRecords, none), w1))
    (hd : env.UnmarshalRecords (dnsRecords.getD "") = (records, none)) :
    ((CleanUp env c ch w).2.net =
        (callDnsApi env (config.ApiUrl ++ "/dns/" ++ TrimRight config.ZoneName "." ++
          "/txt/" ++ findRecordId records.Records ch.ResolvedFQDN) "DELETE" none config
          w1).2.net ∧
      (CleanUp env c ch w).2.Sent =
        (callDnsApi env (config.ApiUrl ++ "/dns/" ++ TrimRight config.ZoneName "." ++
          "/txt/" ++ findRecordId records.Records ch.ResolvedFQDN) "DELETE" none config
          w1).2.Sent) ∧
    (CleanUp env c ch w).2.Sent =
      w.Sent ++ [buildRequest (config.ApiUrl ++ "/dns/" ++ config.ZoneName ++ "/txt") "GET"
        none config] ++
      (if env.NewRequest "DELETE" (config.ApiUrl ++ "/dns/" ++ TrimRight config.ZoneName "." ++
          "/txt/" ++ findRecordId records.Records ch.ResolvedFQDN) = none then
        [buildRequest (config.ApiUrl ++ "/dns/" ++ TrimRight config.ZoneName "." ++
          "/txt/" ++ findRecordId records.Records ch.ResolvedFQDN) "DELETE" none config]
       else []) ∧
    ((∀ r ∈ records.Records, r.Name ≠ TrimRight ch.ResolvedFQDN ".") →
      config.ApiUrl ++ "/dns/" ++ TrimRight config.ZoneName "." ++ "/txt/" ++
        findRecordId records.Records ch.ResolvedFQDN =
      config.ApiUrl ++ "/dns/" ++ TrimRight config.ZoneName "." ++ "/txt/") := by
  have hget : env.NewRequest "GET" (cleanUpListUrl config) = none :=
    callDnsApi_nil_error_sent env _ "GET" none config w (by rw [hl])
  have hw1 : w1.Sent = w.Sent ++ [buildRequest (cleanUpListUrl config) "GET" none config] := by
    have h := callDnsApi_Sent env (cleanUpListUrl config) "GET" none config w
    rw [hl, hget] at h
    simpa using h
  have hdel := callDnsApi_Sent env
    (cleanUpDeleteUrl config (findRecordId records.Records ch.ResolvedFQDN)) "DELETE" none
    config w1
  have hcall : ∃ del err w2, callDnsApi env
      (cleanUpDeleteUrl config (findRecordId records.Records ch.ResolvedFQDN)) "DELETE" none
      config w1 = ((del, err), w2) := ⟨_, _, _, rfl⟩
  obtain ⟨del, err, w2, hcall⟩ := hcall
  have hfin : (CleanUp env c ch w).2.Sent = w2.Sent ∧ (CleanUp env c ch w).2.net = w2.net := by
    cases err <;> simp [CleanUp, hc, hl, hd, hcall, log_Sent, log_net]
  have hsame : callDnsApi env (config.ApiUrl ++ "/dns/" ++ TrimRight config.ZoneName "." ++
      "/txt/" ++ findRecordId records.Records ch.ResolvedFQDN) "DELETE" none config w1 =
      ((del, err), w2) := hcall
  refine ⟨⟨?_, ?_⟩, ?_, ?_⟩
  · rw [hsame]
    exact hfin.2
  · rw [hsame]
    exact hfin.1
  · rw [hcall] at hdel
    rw [hfin.1, hdel, hw1]
    rfl
  · intro hno
    rw [findRecordId_no_match records.Records ch.ResolvedFQDN hno, String.append_empty]

/-- C8, amended, at a list without a record of the challenge name: the DELETE is sent, to
a URL ending in "/txt/". -/
theorem CleanUp_requests_witness :
    clientConfig (demoEnv (answerWith 200 "200 OK" "list") (⟨[], ""⟩, none) (.ok demoSecret))
      demoSolver demoChallenge = .ret (demoConfig, none) ∧
    callDnsApi (demoEnv (answerWith 200 "200 OK" "list") (⟨[], ""⟩, none) (.ok demoSecret))
      (cleanUpListUrl demoConfig) "GET" none demoConfig demoWorld =
      ((some "list", none), { demoWorld with
        Sent := [buildRequest (cleanUpListUrl demoConfig) "GET" none demoConfig] }) ∧
    (demoEnv (answerWith 200 "200 OK" "list") (⟨[], ""⟩, none)
      (.ok demoSecret)).UnmarshalRecords "list" = (⟨[], ""⟩, none) ∧
    (CleanUp (demoEnv (answerWith 200 "200 OK" "list") (⟨[], ""⟩, none) (.ok demoSecret))
      demoSolver demoChallenge demoWorld).2.Sent =
      [buildRequest "https://api.zone.eu/v2/dns/example.com./txt" "GET" none demoConfig,
       buildRequest "https://api.zone.eu/v2/dns/example.com/txt/" "DELETE" none demoConfig] :=
  ⟨by decide, by rfl, by rfl,
    (CleanUp_requests (demoEnv (answerWith 200 "200 OK" "list") (⟨[], ""⟩, none)
      (.ok demoSecret)) demoSolver demoChallenge demoWorld
      { demoWorld with
        Sent := [buildRequest (cleanUpListUrl demoConfig) "GET" none demoConfig] }
      demoConfig (some "list") ⟨[], ""⟩ (by decide) (by rfl) (by rfl)).2.1⟩

/-- C8 as stated fails: the list request succeeds and decodes to a record of the challenge
name whose id is the control character U+0001; `http.NewRequest` rejects the DELETE URL,
so `callDnsApi` returns before `client.Do` and no DELETE request is issued, while
`CleanUp` returns nil. -/
theorem CleanUp_no_delete_issued :
    clientConfig (demoEnv (answerWith 200 "200 OK" demoListBody)
      (⟨[demoRecord "\x01"], ""⟩, none) (.ok demoSecret)) demoSolver demoChallenge =
      .ret (demoConfig, none) ∧
    (callDnsApi (demoEnv (answerWith 200 "200 OK" demoListBody)
      (⟨[demoRecord "\x01"], ""⟩, none) (.ok demoSecret)) (cleanUpListUrl demoConfig) "GET"
      none demoConfig demoWorld).1 = (some demoListBody, none) ∧
    (demoEnv (answerWith 200 "200 OK" demoListBody) (⟨[demoRecord "\x01"], ""⟩, none)
      (.ok demoSecret)).UnmarshalRecords demoListBody = (⟨[demoRecord "\x01"], ""⟩, none) ∧
    findRecordId [demoRecord "\x01"] demoChallenge.ResolvedFQDN = "\x01" ∧
    (CleanUp (demoEnv (answerWith 200 "200 OK" demoListBody)
      (⟨[demoRecord "\x01"], ""⟩, none) (.ok demoSecret)) demoSolver demoChallenge
      demoWorld).1 = .ret none ∧
    (CleanUp (demoEnv (answerWith 200 "200 OK" demoListBody)
      (⟨[demoRecord "\x01"], ""⟩, none) (.ok demoSecret)) demoSolver demoChallenge
      demoWorld).2.Sent =
      [buildRequest "https://api.zone.eu/v2/dns/example.com./txt" "GET" none demoConfig] ∧
    deletes (CleanUp (demoEnv (answerWith 200 "200 OK" demoListBody)
      (⟨[demoRecord "\x01"], ""⟩, none) (.ok demoSecret)) demoSolver demoChallenge
      demoWorld).2.Sent = [] := by
  decide

/-! ## The body `addTxtRecord` posts -/

theorem jsonString_plain (s rest : List Char) (hs : s.all jsonPlainChar = true) :
    jsonString (s ++ '"' :: rest) = some (s, rest) := by
  induction s with
  | nil =>
    rw [List.nil_append, jsonString.eq_def]
    simp
  | cons c s ih =>
    simp only [List.all_cons, Bool.and_eq_true] at hs
    obtain ⟨hc, hs⟩ := hs
    simp only [jsonPlainChar, Bool.and_eq_true, bne_iff_ne, ne_eq, decide_eq_true_eq] at hc
    obtain ⟨⟨h1, h2⟩, h3⟩ := hc
    have h4 : ¬ c.toNat < 0x20 := by omega
    rw [List.cons_append, jsonString.eq_def]
    simp [h1, h2, h4, ih hs]

theorem jsonToken_here (c : Char) (r : List Char) (hc : jsonWs c = false) :
    jsonToken c (c :: r) = some r := by
  simp [jsonToken, List.dropWhile, hc]

theorem jsonToken_after_space (c : Char) (r : List Char) (hc : jsonWs c = false) :
    jsonToken c (' ' :: c :: r) = some r := by
  have hsp : jsonWs ' ' = true := by decide
  simp [jsonToken, List.dropWhile, hc, hsp]

theorem jsonToken_other (c d : Char) (r : List Char) (hd : jsonWs d = false) (hne : d ≠ c) :
    jsonToken c (d :: r) = none := by
  simp [jsonToken, List.dropWhile, hd, hne]

theorem addTxtRecordBody_data (ch : ChallengeRequest) :
    (addTxtRecordBody ch).data =
      '{' :: '"' :: ("destination".data ++ '"' :: ':' :: '"' :: (ch.Key.data ++
        '"' :: ',' :: ' ' :: '"' :: ("name".data ++ '"' :: ':' :: '"' ::
          ((TrimRight ch.ResolvedFQDN ".").data ++ ['"', '}'])))) := by
  simp [addTxtRecordBody, String.data_append]

theorem decodeJsonObject_addTxtRecordBody (ch : ChallengeRequest)
    (hkey : jsonPlain ch.Key = true)
    (hname : jsonPlain (TrimRight ch.ResolvedFQDN ".") = true) :
    decodeJsonObject (addTxtRecordBody ch) =
      some [("destination", ch.Key), ("name", TrimRight ch.ResolvedFQDN ".")] := by
  obtain ⟨n, hn⟩ : ∃ n, (addTxtRecordBody ch).length = n + 2 := by
    refine ⟨(addTxtRecordBody ch).length - 2, ?_⟩
    have : 2 ≤ (addTxtRecordBody ch).data.length := by
      rw [addTxtRecordBody_data]
      simp only [List.length_cons]
      omega
    have hlen : (addTxtRecordBody ch).length = (addTxtRecordBody ch).data.length := rfl
    omega
  have hd : ("destination".data).all jsonPlainChar = true := by decide
  have hm : ("name".data).all jsonPlainChar = true := by decide
  unfold decodeJsonObject
  rw [hn, addTxtRecordBody_data]
  rw [jsonToken_here '{' _ (by decide)]
  simp only
  rw [jsonToken_other '}' '"' _ (by decide) (by decide)]
  simp only
  unfold jsonMembers
  rw [jsonToken_here '"' _ (by decide)]
  simp only
  rw [jsonString_plain _ _ hd]
  simp only
  rw [jsonToken_here ':' _ (by decide)]
  simp only
  rw [jsonToken_here '"' _ (by decide)]
  simp only
  rw [jsonString_plain _ _ hkey]
  simp only
  rw [jsonToken_here ',' _ (by decide)]
  simp only
  unfold jsonMembers
  rw [jsonToken_after_space '"' _ (by decide)]
  simp only
  rw [jsonString_plain _ _ hm]
  simp only
  rw [jsonToken_here ':' _ (by decide)]
  simp only
  rw [jsonToken_here '"' _ (by decide)]
  simp only
  rw [jsonString_plain _ _ hname]
  simp only
  rw [jsonToken_other ',' '}' _ (by decide) (by decide)]
  simp only
  rw [jsonToken_here '}' _ (by decide)]
  simp

/-- C7, amended. For every challenge request whose credentials resolve, `Present` makes
exactly one POST call, on the URL apiUrl + "/dns/" + (zone name right-trimmed of dots) + "/txt" (the
request is sent when `http.NewRequest` accepts the URL), and its body is the text
`{"destination":"<Key>", "name":"<name>"}` with the proof token and the dot-trimmed FQDN
inserted as they are.  When neither of the two holds a double quote, a backslash or a
control character, that body is a well-formed JSON object with exactly the two fields
destination and name, whose values are the proof token and the dot-trimmed FQDN. -/
theorem Present_post_request (env : Env σ κ ρ) (c : zoneEuDNSProviderSolver κ)
    (ch : ChallengeRequest) (w : World σ) (config : ApiConfig)
    (hc : clientConfig env c ch = .ret (config, none)) :
    (Present env c ch w).2.net =
      (callDnsApi env (config.ApiUrl ++ "/dns/" ++ TrimRight config.ZoneName "." ++ "/txt")
        "POST" (some (addTxtRecordBody ch)) config w).2.net ∧
    (Present env c ch w).2.Sent =
      w.Sent ++
      (if env.NewRequest "POST" (config.ApiUrl ++ "/dns/" ++ TrimRight config.ZoneName "." ++
          "/txt") = none then
        [buildRequest (config.ApiUrl ++ "/dns/" ++ TrimRight config.ZoneName "." ++ "/txt")
          "POST" (some (addTxtRecordBody ch)) config]
       else []) ∧
    addTxtRecordBody ch =
      "\x7b\"destination\":\"" ++ ch.Key ++ "\", \"name\":\"" ++
        TrimRight ch.ResolvedFQDN "." ++ "\"\x7d" ∧
    (jsonPlain ch.Key = true → jsonPlain (TrimRight ch.ResolvedFQDN ".") = true →
      decodeJsonObject (addTxtRecordBody ch) =
        some [("destination", ch.Key), ("name", TrimRight ch.ResolvedFQDN ".")]) := by
  have hpost := callDnsApi_Sent env (addTxtRecordUrl config) "POST"
    (some (addTxtRecordBody ch)) config
    (w.log (.info 6 ("call function Present: namespace=" ++ ch.ResourceNamespace ++
      ", zone=" ++ ch.ResolvedZone ++ ", fqdn=" ++ ch.ResolvedFQDN)))
  have hnet := callDnsApi_net_log env (addTxtRecordUrl config) "POST"
    (some (addTxtRecordBody ch)) config w
    (.info 6 ("call function Present: namespace=" ++ ch.ResourceNamespace ++
      ", zone=" ++ ch.ResolvedZone ++ ", fqdn=" ++ ch.ResolvedFQDN))
  rcases hcall : callDnsApi env (addTxtRecordUrl config) "POST"
    (some (addTxtRecordBody ch)) config
    (w.log (.info 6 ("call function Present: namespace=" ++ ch.ResourceNamespace ++
      ", zone=" ++ ch.ResolvedZone ++ ", fqdn=" ++ ch.ResolvedFQDN))) with ⟨⟨add, err⟩, w2⟩
  rw [hcall] at hpost hnet
  have hfin : (Present env c ch w).2.Sent = w2.Sent ∧ (Present env c ch w).2.net = w2.net := by
    cases err <;> simp [Present, addTxtRecord, hc, hcall, log_Sent, log_net]
  refine ⟨?_, ?_, rfl, decodeJsonObject_addTxtRecordBody ch⟩
  · rw [hfin.2, hnet]
    rfl
  · rw [hfin.1, hpost]
    rfl

/-- C7, amended, at the token `tok` and the FQDN `_acme-challenge.example.com.`. -/
theorem Present_post_request_witness :
    clientConfig (demoEnv (answerWith 201 "201 Created" "") (⟨[], ""⟩, none)
      (.ok demoSecret)) demoSolver demoChallenge = .ret (demoConfig, none) ∧
    jsonPlain demoChallenge.Key = true ∧
    jsonPlain (TrimRight demoChallenge.ResolvedFQDN ".") = true ∧
    decodeJsonObject (addTxtRecordBody demoChallenge) =
      some [("destination", "tok"), ("name", "_acme-challenge.example.com")] :=
  ⟨by decide, by decide, by decide,
    (Present_post_request (demoEnv (answerWith 201 "201 Created" "") (⟨[], ""⟩, none)
      (.ok demoSecret)) demoSolver demoChallenge demoWorld demoConfig (by decide)).2.2.2
      (by decide) (by decide)⟩

/-- C7 as stated fails: with the token `a"b` the body `Present` posts is not a JSON
object, and with the token `\n` (a backslash and the letter n) the body is a JSON object
whose destination value is a line feed, not the token. -/
theorem Present_body_not_json :
    (Present (demoEnv (answerWith 201 "201 Created" "") (⟨[], ""⟩, none) (.ok demoSecret))
      demoSolver { demoChallenge with Key := "a\"b" } demoWorld).2.Sent =
      [buildRequest "https://api.zone.eu/v2/dns/example.com/txt" "POST"
        (some "\x7b\"destination\":\"a\"b\", \"name\":\"_acme-challenge.example.com\"\x7d")
        demoConfig] ∧
    decodeJsonObject
      "\x7b\"destination\":\"a\"b\", \"name\":\"_acme-challenge.example.com\"\x7d" = none ∧
    (Present (demoEnv (answerWith 201 "201 Created" "") (⟨[], ""⟩, none) (.ok demoSecret))
      demoSolver { demoChallenge with Key := "\\n" } demoWorld).2.Sent =
      [buildRequest "https://api.zone.eu/v2/dns/example.com/txt" "POST"
        (some "\x7b\"destination\":\"\\n\", \"name\":\"_acme-challenge.example.com\"\x7d")
        demoConfig] ∧
    decodeJsonObject
      "\x7b\"destination\":\"\\n\", \"name\":\"_acme-challenge.example.com\"\x7d" =
      some [("destination", "\n"), ("name", "_acme-challenge.example.com")] ∧
    ("\n" : String) ≠ "\\n" := by
  decide

end ZoneEu
